import Mathlib

/-!
Verification of the cq_utils repository: a shallow embedding of
src/cq_utils/units.py and src/cq_utils/cadquery.py, with theorems settling
the spec's claims about them.

External libraries (pint, cadquery) are opaque to the repository; they are
modelled by explicit data (a quantity carries its magnitude and unit text,
a registry carries its loaded definitions and default system, kernel shapes
live in an explicit store) and by parameters (the registry's base-unit
conversion is an arbitrary function, geometric identity an arbitrary
relation), so every theorem is about what the repository's own code does
with the library's answers.
-/

namespace CqUtils

/-! ## Units bridge: src/cq_utils/units.py -/

/-- Model of a pint quantity: a numeric magnitude tagged with a unit. The
magnitude is a rational so evaluation stays exact. -/
structure Quantity where
  magnitude : ℚ
  units : String
  deriving Repr, DecidableEq

/-- A dynamically-typed Python value as it may cross the units bridge:
either a unit-wrapped quantity, a bare number, or anything else. -/
inductive PyVal (α : Type) where
  | quantity (q : Quantity)
  | num (m : ℚ)
  | other (v : α)
  deriving Repr, DecidableEq

/-- Embedding of the source function. The behaviour of pint's
to_base_units (which depends on the registry's loaded definitions) is the
parameter conv; the source then takes its magnitude.

Source (units.py, _to_base_magnitude):
  if isinstance(arg, pint.Quantity):
      return arg.to_base_units().magnitude
  return arg
-/
def to_base_magnitude (conv : Quantity → Quantity) : PyVal α → PyVal α
  | PyVal.quantity q => PyVal.num (conv q).magnitude
  | arg => arg

/-- Embedding of the decorator from units.py (args_to_base_magnitude):
the wrapped function applies to_base_magnitude to every positional
argument and to every keyword argument's value, calls func once with the
results, and returns whatever func returned. Keyword arguments are an
association list to keep Python's dict insertion order observable. -/
def args_to_base_magnitude (conv : Quantity → Quantity)
    (func : List (PyVal α) → List (String × PyVal α) → β) :
    List (PyVal α) → List (String × PyVal α) → β :=
  fun args kwargs =>
    func (args.map (to_base_magnitude conv))
      (kwargs.map fun kv => (kv.1, to_base_magnitude conv kv.2))

/-- Instrumentation used to state that the wrapper invokes the wrapped
function exactly once: alongside the result, record the argument lists of
every invocation. -/
def traced (func : List (PyVal α) → List (String × PyVal α) → β) :
    List (PyVal α) → List (String × PyVal α) →
      β × List (List (PyVal α) × List (String × PyVal α)) :=
  fun args kwargs => (func args kwargs, [(args, kwargs)])

/-- The two engineering unit systems of units.py. -/
inductive EngineeringSystems where
  | si_engineering
  | us_engineering
  deriving Repr, DecidableEq

/-- The enum member's name, as Python's enum exposes it. -/
def EngineeringSystems.name : EngineeringSystems → String
  | si_engineering => "si_engineering"
  | us_engineering => "us_engineering"

/-- The enum member's value: the pint system definition text, verbatim
from the source (a Python triple-quoted string). -/
def EngineeringSystems.value : EngineeringSystems → String
  | si_engineering =>
      "\n        @system si_engineering using SI\n            millimeter\n        @end\n    "
  | us_engineering =>
      "\n        @system us_engineering using US\n            thou\n        @end\n    "

/-- The members of the enum, in declaration order. -/
def EngineeringSystems.members : List EngineeringSystems :=
  [EngineeringSystems.si_engineering, EngineeringSystems.us_engineering]

/-- Embedding of EngineeringSystems.system_names:
  return [element.name for element in list(cls)] -/
def EngineeringSystems.system_names : List String :=
  EngineeringSystems.members.map EngineeringSystems.name

/-- Model of pint's application registry: the definition texts loaded into
it, in order, and its active default system. -/
structure UnitRegistry where
  loaded_definitions : List String
  default_system : Option String
  deriving Repr, DecidableEq

/-- Model of registry.load_definitions(io.StringIO(text)): the definition
text is recorded as loaded. -/
def UnitRegistry.load_definitions (r : UnitRegistry) (text : String) : UnitRegistry :=
  { r with loaded_definitions := r.loaded_definitions ++ [text] }

/-- Embedding of get_registry from units.py. The process-wide application
registry is passed as explicit state; the result pairs the returned
registry with the state the process is left in (in Python both are the
same shared object, so they coincide by construction).

Source:
  found_registry = pint.get_application_registry()
  if system:
      found_registry.load_definitions(io.StringIO(system.value))
      found_registry.default_system = system.name
  return found_registry
-/
def get_registry (system : Option EngineeringSystems) (appRegistry : UnitRegistry) :
    UnitRegistry × UnitRegistry :=
  let found_registry := appRegistry
  match system with
  | some s =>
      let mutated :=
        { found_registry.load_definitions s.value with default_system := some s.name }
      (mutated, mutated)
  | none => (found_registry, found_registry)

/-- Split a character list into maximal runs of non-whitespace characters;
acc holds the current run, reversed. -/
def splitRuns : List Char → List Char → List String
  | [], acc => if acc.isEmpty then [] else [String.mk acc.reverse]
  | c :: cs, acc =>
      if c = ' ' || c = '\n' then
        (if acc.isEmpty then [] else [String.mk acc.reverse]) ++ splitRuns cs []
      else
        splitRuns cs (c :: acc)

/-- Whitespace tokens of a pint definition text. -/
def defTokens (s : String) : List String :=
  splitRuns s.data []

/-- The token following the first "@system" token, if any. -/
def afterSystemToken : List String → Option String
  | [] => none
  | t :: rest => if t = "@system" then rest.head? else afterSystemToken rest

/-- The system name declared inside a pint definition text: the word
following the at-system directive. -/
def declaredSystemName (s : String) : Option String :=
  afterSystemToken (defTokens s)

/-! ## Geometry accessors: src/cq_utils/cadquery.py -/

/-- A Python lookup error as the geometry helpers can raise it: a KeyError
from a mapping access, an IndexError from a sequence access. -/
inductive PyErr where
  | keyError
  | indexError
  deriving Repr, DecidableEq

/-- Model of one entry of an assembly's object mapping: the object's own
shape, and the result of the kernel call toCompound() on it, listed as the
constituents Python's list() would produce in iteration order. The kernel
owns that computation, so the list is arbitrary data here. -/
structure AssemblyObject (σ : Type) where
  shape : σ
  toCompound : List σ

/-- Model of a cadquery assembly: its objects attribute, a name-to-object
mapping (an association list, keeping insertion order). -/
structure Assembly (σ : Type) where
  objects : List (String × AssemblyObject σ)

/-- Embedding of get_positioned_component from cadquery.py:
  return list(assembly.objects[name].toCompound())[0]
The mapping subscript raises KeyError when the name is absent; the final
[0] raises IndexError when the compound has no constituent. -/
def get_positioned_component (assembly : Assembly σ) (name : String) :
    Except PyErr σ :=
  match assembly.objects.lookup name with
  | none => Except.error PyErr.keyError
  | some obj =>
      match obj.toCompound with
      | [] => Except.error PyErr.indexError
      | c :: _ => Except.ok c

/-- A 3-component vector with rational coordinates, modelling the kernel's
points and direction vectors exactly. -/
structure Vec3 where
  x : ℚ
  y : ℚ
  z : ℚ
  deriving Repr, DecidableEq

/-- Model of the kernel transform behind a location: its rotation part (a
row matrix) and its translation part. The helper under test only reads the
translation. -/
structure Trsf where
  rotationRows : Vec3 × Vec3 × Vec3
  translationPart : Vec3
  deriving Repr, DecidableEq

/-- The transform of a pure translation by v: identity rotation, v as the
translation part. -/
def Trsf.pureTranslation (v : Vec3) : Trsf :=
  { rotationRows := (⟨1, 0, 0⟩, ⟨0, 1, 0⟩, ⟨0, 0, 1⟩), translationPart := v }

/-- Model of a cadquery Location: its wrapped kernel object reduces here to
the transform the kernel would report. -/
structure Location where
  wrappedTransformation : Trsf
  deriving Repr, DecidableEq

/-- Embedding of location_position from cadquery.py:
  translation = location.wrapped.Transformation().TranslationPart()
  return (translation.X(), translation.Y(), translation.Z())
-/
def location_position (location : Location) : ℚ × ℚ × ℚ :=
  let translation := location.wrappedTransformation.translationPart
  (translation.x, translation.y, translation.z)

/-- Model of a cadquery Face: its centroid and the kernel's normal field,
a function of the query point. Face.normalAt with no argument evaluates
the normal at the face's center. -/
structure Face where
  center : Vec3
  normalField : Vec3 → Vec3

/-- The kernel query face.Center(). -/
def Face.Center (face : Face) : Vec3 :=
  face.center

/-- The kernel query face.normalAt(locationVector): the normal at the given
point, defaulting to the face's center when no point is passed. -/
def Face.normalAt (face : Face) (locationVector : Option Vec3 := none) : Vec3 :=
  face.normalField (locationVector.getD face.center)

/-- Model of a cadquery Plane as the constructor call records it: an
origin and a normal. -/
structure Plane where
  origin : Vec3
  normal : Vec3
  deriving Repr, DecidableEq

/-- Embedding of plane_from_face from cadquery.py:
  return cadquery.Plane(face.Center(), normal=face.normalAt())
-/
def plane_from_face (face : Face) : Plane :=
  { origin := face.Center, normal := face.normalAt }

/-- An explicit store of kernel shape instances: object identity is the
index into the store, the stored value is the instance's geometry. This
makes instance allocation and mutation observable. -/
structure ShapeStore (γ : Type) where
  shapes : List γ
  deriving Repr, DecidableEq

/-- The geometry of the instance a reference points at. -/
def ShapeStore.geomAt (st : ShapeStore γ) (r : Nat) : Option γ :=
  st.shapes.get? r

/-- Destructively overwrite the geometry of one instance, leaving every
other instance alone. -/
def ShapeStore.mutate (st : ShapeStore γ) (r : Nat) (g : γ) : ShapeStore γ :=
  { shapes := st.shapes.set r g }

/-- The kernel call shape.copy(): allocate a fresh instance carrying the
same geometry and return its reference. -/
def ShapeStore.copy (st : ShapeStore γ) (r : Nat) : Nat × ShapeStore γ :=
  (st.shapes.length, { shapes := st.shapes ++ (st.shapes.get? r).toList })

/-- Model of a cadquery Workplane: the references of the objects on its
stack. Workplane() starts empty; add pushes one object. -/
structure Workplane where
  objs : List Nat
  deriving Repr, DecidableEq

/-- Embedding of workplane_with_copy from cadquery.py:
  return cadquery.Workplane().add(shape.copy())
in store-passing form: the copy allocates, the fresh workplane holds just
the copy's reference. -/
def workplane_with_copy (st : ShapeStore γ) (shape : Nat) :
    Workplane × ShapeStore γ :=
  let copied := st.copy shape
  ({ objs := [copied.1] }, copied.2)

/-! ## Concreta for witnesses -/

/-- A concrete assembly object for witnesses: shape 7, whose compound
conversion lists that one constituent. -/
def sampleObject : AssemblyObject Nat :=
  { shape := 7, toCompound := [7] }

/-- A concrete one-object assembly for witnesses. -/
def sampleAssembly : Assembly Nat :=
  { objects := [("part", sampleObject)] }

/-- A concrete two-shape store for witnesses. -/
def sampleStore : ShapeStore Nat :=
  { shapes := [10, 20] }

/-! ## Theorems for the claims -/

/-- Claim C1: for every function func and all positional and keyword
arguments, the wrapper returned by args_to_base_magnitude invokes func
exactly once, with to_base_magnitude applied to every positional argument
and to every keyword argument value (keys and order unchanged), and
returns the result of func unmodified. The second conjunct instruments
func to record its invocations: the record of the wrapped call is exactly
one invocation, at the converted arguments. -/
theorem args_to_base_magnitude_calls_once {α β : Type}
    (conv : Quantity → Quantity)
    (func : List (PyVal α) → List (String × PyVal α) → β)
    (args : List (PyVal α)) (kwargs : List (String × PyVal α)) :
    args_to_base_magnitude conv func args kwargs
      = func (args.map (to_base_magnitude conv))
          (kwargs.map fun kv => (kv.1, to_base_magnitude conv kv.2))
    ∧ args_to_base_magnitude conv (traced func) args kwargs
      = (func (args.map (to_base_magnitude conv))
            (kwargs.map fun kv => (kv.1, to_base_magnitude conv kv.2)),
          [(args.map (to_base_magnitude conv),
            kwargs.map fun kv => (kv.1, to_base_magnitude conv kv.2))]) :=
  ⟨rfl, rfl⟩

/-- Claim C2: to_base_magnitude maps a quantity to the bare magnitude of
its conversion to base units, and returns every other value unchanged
(hence is idempotent on non-quantity values). -/
theorem to_base_magnitude_cases {α : Type} (conv : Quantity → Quantity)
    (v : PyVal α) :
    (∀ q : Quantity, v = PyVal.quantity q →
        to_base_magnitude conv v = PyVal.num (conv q).magnitude)
    ∧ ((∀ q : Quantity, v ≠ PyVal.quantity q) →
        to_base_magnitude conv v = v
        ∧ to_base_magnitude conv (to_base_magnitude conv v)
            = to_base_magnitude conv v) := by
  cases v with
  | quantity q =>
      refine ⟨fun q2 h => ?_, fun h => absurd rfl (h q)⟩
      cases h
      rfl
  | num m => exact ⟨fun q h => (nomatch h), fun _ => ⟨rfl, rfl⟩⟩
  | other x => exact ⟨fun q h => (nomatch h), fun _ => ⟨rfl, rfl⟩⟩

/-- Claim C3: get_registry with a system loads the definition text of that
system into the process-wide registry, sets the default system of that
registry to the name of the member, and returns the mutated registry (the
returned registry and the new process-wide state coincide). -/
theorem get_registry_with_system (s : EngineeringSystems) (st : UnitRegistry) :
    (get_registry (some s) st).1 = (get_registry (some s) st).2
    ∧ (get_registry (some s) st).2.loaded_definitions
        = st.loaded_definitions ++ [s.value]
    ∧ (get_registry (some s) st).2.default_system = some s.name :=
  ⟨rfl, rfl, rfl⟩

/-- Claim C4: get_registry with no system returns the process-wide
registry and leaves its state unchanged: no definition is loaded and the
default system is untouched. -/
theorem get_registry_without_system (st : UnitRegistry) :
    get_registry none st = (st, st) :=
  rfl

/-- Claim C5: get_positioned_component fails with the mapping lookup
error (KeyError) exactly when the name is absent from the object mapping
of the assembly; for a present name the mapping access itself cannot fail
that way. -/
theorem get_positioned_component_lookup {σ : Type} (assembly : Assembly σ)
    (name : String) :
    (assembly.objects.lookup name = none →
        get_positioned_component assembly name = Except.error PyErr.keyError)
    ∧ (assembly.objects.lookup name ≠ none →
        get_positioned_component assembly name ≠ Except.error PyErr.keyError) := by
  constructor
  · intro h
    simp [get_positioned_component, h]
  · intro h
    match hl : assembly.objects.lookup name with
    | none => exact absurd hl h
    | some obj =>
        cases hc : obj.toCompound with
        | nil => simp [get_positioned_component, hl, hc]
        | cons c cs => simp [get_positioned_component, hl, hc]

/-- Claim C6: for an assembly whose object mapping has name bound to an
object, get_positioned_component returns the first constituent of the
solid-compound conversion of that object; by the kernel guarantee that
this first (and expected-only) constituent is geometrically identical to
the shape of the object, the returned compound is geometrically identical
to that shape. -/
theorem get_positioned_component_found {σ : Type} (geomEq : σ → σ → Prop)
    (assembly : Assembly σ) (name : String) (obj : AssemblyObject σ)
    (c : σ) (rest : List σ)
    (hfound : assembly.objects.lookup name = some obj)
    (hcomp : obj.toCompound = c :: rest)
    (hkernel : geomEq c obj.shape) :
    get_positioned_component assembly name = Except.ok c
    ∧ geomEq c obj.shape := by
  refine ⟨?_, hkernel⟩
  simp [get_positioned_component, hfound, hcomp]

/-- Witness for C6 at a concrete assembly: the object named part has shape
7 and the singleton compound [7]; the helper returns 7, geometrically
identical (here: equal) to the shape. -/
theorem get_positioned_component_found_witness :
    get_positioned_component sampleAssembly "part" = Except.ok 7
    ∧ (7 : Nat) = sampleObject.shape :=
  get_positioned_component_found Eq sampleAssembly "part" sampleObject 7 []
    rfl rfl rfl

/-- Claim C7: workplane_with_copy returns a fresh workplane whose stack
holds exactly one object: a newly allocated instance, distinct from the
given shape, carrying the same geometry; mutating that contained instance
leaves the geometry of the original shape untouched. -/
theorem workplane_with_copy_isolates {γ : Type} (st : ShapeStore γ)
    (shape : Nat) (g0 : γ) (hvalid : st.geomAt shape = some g0) :
    (workplane_with_copy st shape).1.objs = [st.shapes.length]
    ∧ st.shapes.length ≠ shape
    ∧ (workplane_with_copy st shape).2.geomAt st.shapes.length = some g0
    ∧ ∀ g : γ,
        ((workplane_with_copy st shape).2.mutate st.shapes.length g).geomAt shape
          = some g0 := by
  have hget : st.shapes.get? shape = some g0 := hvalid
  have hlt : shape < st.shapes.length := by
    by_contra hge
    rw [List.get?_eq_none.mpr (Nat.le_of_not_lt hge)] at hget
    exact Option.noConfusion hget
  refine ⟨rfl, Nat.ne_of_gt hlt, ?_, ?_⟩
  · show (st.shapes ++ (st.shapes.get? shape).toList).get? st.shapes.length = some g0
    rw [hget]
    exact List.get?_concat_length st.shapes g0
  · intro g
    show ((st.shapes ++ (st.shapes.get? shape).toList).set st.shapes.length g).get? shape
        = some g0
    rw [hget, List.get?_set_ne _ _ (Nat.ne_of_gt hlt), List.get?_append hlt]
    exact hget

/-- Witness for C7 at a concrete store of two shapes: copying shape 0
(geometry 10) yields the fresh reference 2 on the workplane, with the same
geometry, and overwriting the copy leaves shape 0 at geometry 10. -/
theorem workplane_with_copy_isolates_witness :
    (workplane_with_copy sampleStore 0).1.objs = [sampleStore.shapes.length]
    ∧ sampleStore.shapes.length ≠ 0
    ∧ (workplane_with_copy sampleStore 0).2.geomAt sampleStore.shapes.length
        = some 10
    ∧ ∀ g : Nat,
        ((workplane_with_copy sampleStore 0).2.mutate sampleStore.shapes.length
            g).geomAt 0 = some 10 :=
  workplane_with_copy_isolates sampleStore 0 10 rfl

/-- Claim C8: plane_from_face builds the plane whose origin is the center
(centroid) of the face and whose normal is the normal of the face
evaluated at that centroid (the kernel query with no argument defaults to
the center). -/
theorem plane_from_face_origin_normal (face : Face) :
    (plane_from_face face).origin = face.Center
    ∧ (plane_from_face face).normal = face.normalField face.Center :=
  ⟨rfl, rfl⟩

/-- Claim C9: on a location whose placement transform is a pure
translation by (x, y, z), location_position returns exactly the ordered
triple (x, y, z). -/
theorem location_position_pure_translation (location : Location)
    (x y z : ℚ)
    (h : location.wrappedTransformation = Trsf.pureTranslation ⟨x, y, z⟩) :
    location_position location = (x, y, z) := by
  simp [location_position, h, Trsf.pureTranslation]

/-- Witness for C9 at the concrete translation (1, 2, 3). -/
theorem location_position_pure_translation_witness :
    location_position { wrappedTransformation := Trsf.pureTranslation ⟨1, 2, 3⟩ }
      = ((1 : ℚ), (2 : ℚ), (3 : ℚ)) :=
  location_position_pure_translation
    { wrappedTransformation := Trsf.pureTranslation ⟨1, 2, 3⟩ } 1 2 3 rfl

/-- Claim C10: every member of EngineeringSystems has the same name as
the system declared inside its definition text, system_names lists
exactly the two names, and after get_registry with a system the default
system of the registry names precisely the system whose definition was
just loaded (the declared name of the last loaded definition equals the
new default). -/
theorem engineering_systems_name_invariant :
    EngineeringSystems.system_names = ["si_engineering", "us_engineering"]
    ∧ (∀ s : EngineeringSystems, declaredSystemName s.value = some s.name)
    ∧ (∀ (s : EngineeringSystems) (st : UnitRegistry),
        ((get_registry (some s) st).2.loaded_definitions.getLast?).bind
            declaredSystemName
          = (get_registry (some s) st).2.default_system) := by
  refine ⟨rfl, ?_, ?_⟩
  · intro s
    cases s <;> decide
  · intro s st
    have hlast :
        (get_registry (some s) st).2.loaded_definitions.getLast? = some s.value := by
      simp [get_registry, UnitRegistry.load_definitions]
    rw [hlast]
    show declaredSystemName s.value = some s.name
    cases s <;> decide

end CqUtils
